import Mathlib

/-!
Shallow embedding of the bit-banged water-meter serial link
(ESP32-water-meter repository): the UART frame codec, the simulator's
response builder and pulse-driven responder, and the MTU decoder pipeline
with its operation/statistics bookkeeping.

Machine integers are embedded as `Nat` (with explicit `% 256` / `% 128`
where the Rust code masks `u8` values); `heapless::Vec` pushes are
embedded by `hpush`, which appends only while the buffer is below its
capacity (a failed push is dropped, exactly as the Rust code ignores the
`Result` of `push`). Bit-stream receives with timeout are embedded as a
finite list of events: `some b` for a received bit, `none` for a timeout
of one `recv_timeout` call; the end of the list stands for the operation
being cancelled (`running` cleared) / no further bit ever arriving.
-/

/-- Meter type from `meter/config.rs` (Sensus uses 7E1 framing, Neptune 7E2). -/
inductive MeterType
  | Sensus
  | Neptune
deriving DecidableEq, Repr, Fintype

/-- UART framing variants from `mtu/config.rs` (`UartFraming`). -/
inductive UartFraming
  | SevenE1
  | SevenE2
deriving DecidableEq, Repr, Fintype

/-- `UartFraming::bits_per_frame` from `mtu/config.rs`. -/
def UartFraming.bits_per_frame : UartFraming → Nat
  | .SevenE1 => 10
  | .SevenE2 => 11

/-- The framing variant of a meter type (`set_type(Sensus|Neptune)` maps to
SevenE1/SevenE2; `build_uart_frame` emits 1 stop bit for Sensus, 2 for Neptune). -/
def MeterType.framing : MeterType → UartFraming
  | .Sensus => .SevenE1
  | .Neptune => .SevenE2

/-- Error kinds from `mtu/error.rs` (`MtuError`). -/
inductive MtuError
  | GpioError
  | TimeoutError
  | FramingError
  | FramingErrorInvalidBitCount
  | FramingErrorInvalidStartBit
  | FramingErrorInvalidStopBit
  | FramingErrorParityMismatch
  | ConfigError
  | ChannelError
deriving DecidableEq, Repr

/-- `u8::count_ones` for a byte value (< 256): the sum of its 8 bits. -/
def popcount8 (n : Nat) : Nat :=
  (List.range 8).foldl (fun acc i => acc + n / 2 ^ i % 2) 0

/-- `MeterHandler::build_uart_frame` from `meter/handler.rs` lines 63-95:
start bit 0, then the 7 low bits of `byte & 0x7F` LSB first, then even
parity (`count_ones % 2`), then 1 stop bit (Sensus / 7E1) or 2 stop bits
(Neptune / 7E2). (`byte & 0x7F` is embedded as `byte % 128`.) -/
def build_uart_frame (byte : Nat) (mt : MeterType) : List Nat :=
  let data7 := byte % 128
  let dataBits := (List.range 7).map (fun i => data7 / 2 ^ i % 2)
  let parity := popcount8 data7 % 2
  let stops : List Nat :=
    match mt with
    | .Sensus => [1]
    | .Neptune => [1, 1]
  0 :: dataBits ++ [parity] ++ stops

/-- A checked push on a fixed-capacity `heapless::Vec`: the element is
appended while the length is below `cap`, otherwise the push fails and the
buffer is unchanged (the Rust code ignores the returned `Result`). -/
def hpush (cap : Nat) (buf : List Nat) (x : Nat) : List Nat :=
  if buf.length < cap then buf ++ [x] else buf

/-- `MeterHandler::build_response_frames` from `meter/handler.rs` lines
98-123: builds the frame of every character of the response message
(`ch as u8` is embedded as `ch % 256`) and pushes each bit into a
capacity-2048 `heapless::Vec` (push results ignored). -/
def build_response_frames (msg : List Nat) (mt : MeterType) : List Nat :=
  msg.foldl (fun buf ch => (build_uart_frame (ch % 256) mt).foldl (hpush 2048) buf) []

/-- Modelled from the spec: `mtu/uart_framing.rs` (module `uart_framing`,
declared in `mtu/mod.rs`) is not present under `src/`; this embeds the
frame validation and character extraction of `UartFrame::new` +
`extract_char_from_frame` as §4.1 of the spec describes FrameCodec
validation: `FramingErrorInvalidBitCount` if the length is not
`bits_per_frame`, `FramingErrorInvalidStartBit` if bit 0 is not 0,
`FramingErrorParityMismatch` if the parity bit differs from the even
parity of the 7 data bits, `FramingErrorInvalidStopBit` if any stop bit
is not 1; on success the 7-bit value is rebuilt from the data bits
(LSB first). -/
def extract_char_from_frame (bits : List Nat) (v : UartFraming) : Except MtuError Nat :=
  if bits.length ≠ v.bits_per_frame then .error .FramingErrorInvalidBitCount
  else if bits.getD 0 2 ≠ 0 then .error .FramingErrorInvalidStartBit
  else
    let dataBits := (List.range 7).map (fun i => bits.getD (i + 1) 2)
    let parity := dataBits.sum % 2
    if bits.getD 8 2 ≠ parity then .error .FramingErrorParityMismatch
    else if (bits.drop 9).any (fun b => b != 1) then .error .FramingErrorInvalidStopBit
    else .ok ((List.range 7).foldl (fun acc i => acc + bits.getD (i + 1) 2 * 2 ^ i) 0)

deriving instance DecidableEq for Except

example : build_uart_frame 79 .Sensus = [0, 1, 1, 1, 1, 0, 0, 1, 1, 1] := by decide

example : extract_char_from_frame (build_uart_frame 79 .Sensus) .SevenE1 = .ok 79 := by decide

/-- C1: for every byte b in 0..128 and both framing variants, decoding the
frame built for b under that variant yields exactly b with no error. -/
theorem frame_roundtrip (b : Fin 128) (mt : MeterType) :
    extract_char_from_frame (build_uart_frame b.val mt) mt.framing = .ok b.val := by
  revert b mt
  decide

set_option maxRecDepth 8000 in
/-- C2: the built frame is start 0, the 7 low-order bits of b LSB first at
indices 1..7, even parity (sum of the data bits mod 2) at index 8, then
stop bits all equal to 1 (one for SevenE1, two for SevenE2); the SevenE1
frame of 'O' (0x4F) is [0,1,1,1,1,0,0,1,1,1]; building "OK\r" under
SevenE1 yields exactly 30 bits. -/
theorem frame_layout :
    (∀ (b : Fin 256) (mt : MeterType),
      (build_uart_frame b.val mt).length = mt.framing.bits_per_frame ∧
      (build_uart_frame b.val mt).getD 0 2 = 0 ∧
      (∀ i : Fin 7, (build_uart_frame b.val mt).getD (i.val + 1) 2 = b.val / 2 ^ i.val % 2) ∧
      (build_uart_frame b.val mt).getD 8 2 =
        ((List.range 7).map (fun i => b.val / 2 ^ i % 2)).sum % 2 ∧
      (∀ s ∈ (build_uart_frame b.val mt).drop 9, s = 1)) ∧
    build_uart_frame 79 .Sensus = [0, 1, 1, 1, 1, 0, 0, 1, 1, 1] ∧
    (build_response_frames [79, 75, 13] .Sensus).length = 30 := by
  decide

/-- Folding checked pushes into a buffer below capacity appends exactly the
first `cap - buf.length` pushed elements and drops the rest. -/
theorem foldl_hpush_eq (cap : Nat) (bs : List Nat) :
    ∀ buf : List Nat, buf.length ≤ cap →
      bs.foldl (hpush cap) buf = buf ++ bs.take (cap - buf.length) := by
  induction bs with
  | nil => intro buf _; simp
  | cons b bs ih =>
    intro buf hle
    by_cases hlt : buf.length < cap
    · have hstep : hpush cap buf b = buf ++ [b] := by simp [hpush, hlt]
      have hlen : (buf ++ [b]).length ≤ cap := by
        simpa using Nat.succ_le_of_lt hlt
      have hsub : cap - buf.length = (cap - (buf.length + 1)) + 1 := by omega
      calc (b :: bs).foldl (hpush cap) buf
        = bs.foldl (hpush cap) (buf ++ [b]) := by rw [List.foldl_cons, hstep]
      _ = (buf ++ [b]) ++ bs.take (cap - (buf.length + 1)) := by
            simpa using ih (buf ++ [b]) hlen
      _ = buf ++ (b :: bs).take (cap - buf.length) := by
            rw [hsub]; simp [List.take_succ_cons]
    · have heq : buf.length = cap := by omega
      have hstep : hpush cap buf b = buf := by simp [hpush, hlt]
      have hsub : cap - buf.length = 0 := by omega
      calc (b :: bs).foldl (hpush cap) buf
        = bs.foldl (hpush cap) buf := by rw [List.foldl_cons, hstep]
      _ = buf ++ bs.take (cap - buf.length) := ih buf hle
      _ = buf ++ (b :: bs).take (cap - buf.length) := by rw [hsub]; simp

/-- `build_response_frames` equals the first 2048 bits of the flat
concatenation of all the per-character frames. -/
theorem build_response_frames_eq (msg : List Nat) (mt : MeterType) :
    build_response_frames msg mt =
      ((msg.map (fun ch => build_uart_frame (ch % 256) mt)).flatten).take 2048 := by
  have h1 : build_response_frames msg mt =
      (msg.map (fun ch => build_uart_frame (ch % 256) mt)).foldl
        (fun buf l => l.foldl (hpush 2048) buf) [] := by
    rw [List.foldl_map]
    rfl
  have h2 : ((msg.map (fun ch => build_uart_frame (ch % 256) mt)).flatten).foldl
        (hpush 2048) [] =
      (msg.map (fun ch => build_uart_frame (ch % 256) mt)).foldl
        (fun buf l => l.foldl (hpush 2048) buf) [] :=
    List.foldl_flatten _ _ _
  have h3 := foldl_hpush_eq 2048
    ((msg.map (fun ch => build_uart_frame (ch % 256) mt)).flatten) [] (by simp)
  simp only [List.nil_append, Nat.sub_zero, List.length_nil] at h3
  rw [h1, ← h2, h3]

/-- Every built frame has exactly `bits_per_frame` bits for its variant. -/
theorem build_uart_frame_length (byte : Nat) (mt : MeterType) :
    (build_uart_frame byte mt).length = mt.framing.bits_per_frame := by
  cases mt <;> simp [build_uart_frame, MeterType.framing, UartFraming.bits_per_frame]

/-- The response buffer's length is the total bit count of the message's
frames, capped at the 2048-bit capacity. -/
theorem build_response_frames_length (msg : List Nat) (mt : MeterType) :
    (build_response_frames msg mt).length =
      min (msg.length * mt.framing.bits_per_frame) 2048 := by
  rw [build_response_frames_eq, List.length_take, List.length_flatten]
  have h : (msg.map (fun ch => build_uart_frame (ch % 256) mt)).map List.length =
      List.replicate msg.length mt.framing.bits_per_frame := by
    rw [List.map_map]
    have : (List.length ∘ fun ch => build_uart_frame (ch % 256) mt) =
        fun _ => mt.framing.bits_per_frame := by
      funext ch
      exact build_uart_frame_length (ch % 256) mt
    rw [this, List.map_const']
  rw [h, List.sum_replicate, smul_eq_mul, Nat.min_comm]

/-- C8 counterexample: for the 256-character response message of 'A's
(code 65) under Sensus/SevenE1 framing the frames total 256 × 10 = 2560
bits, yet `build_response_frames` returns a 2048-bit buffer: the overflow
is silently dropped by the ignored `heapless::Vec::push` results, not
explicitly rejected, and the result is neither `chars × bits_per_frame`
bits nor an error. -/
theorem response_overflow_truncated :
    (build_response_frames (List.replicate 256 65) .Sensus).length = 2048 ∧
    (build_response_frames (List.replicate 256 65) .Sensus).length ≠ 256 * 10 := by
  have h := build_response_frames_length (List.replicate 256 65) .Sensus
  rw [List.length_replicate] at h
  norm_num [MeterType.framing, UartFraming.bits_per_frame] at h
  omega

/-- C8 amended: protocol buffer pushes are capacity-checked, so the
buffers never grow past their fixed capacity, but overflow is silently
dropped rather than explicitly rejected: `build_response_frames` returns
the first `min(chars × bits_per_frame, 2048)` bits of the concatenated
frames (truncating any excess), and a push onto the decoder's full
256-character buffer leaves the buffer unchanged without any signal. -/
theorem response_frames_bounded (msg : List Nat) (mt : MeterType) :
    (build_response_frames msg mt).length ≤ 2048 ∧
    build_response_frames msg mt =
      ((msg.map (fun ch => build_uart_frame (ch % 256) mt)).flatten).take 2048 ∧
    (msg.length * mt.framing.bits_per_frame ≤ 2048 →
      (build_response_frames msg mt).length = msg.length * mt.framing.bits_per_frame) ∧
    (∀ (chars : List Nat) (ch : Nat), chars.length = 256 → hpush 256 chars ch = chars) := by
  refine ⟨?_, build_response_frames_eq msg mt, ?_, ?_⟩
  · rw [build_response_frames_length]
    omega
  · intro hle
    rw [build_response_frames_length]
    omega
  · intro chars ch hlen
    simp [hpush, hlen]

/-- Witness for `response_frames_bounded` at the message "OK\r" under
Sensus framing (30 = 3 × 10 bits, below capacity) and a full 256-entry
character buffer. -/
theorem response_frames_bounded_witness :
    (build_response_frames [79, 75, 13] .Sensus).length = 3 * 10 ∧
    hpush 256 (List.replicate 256 65) 66 = List.replicate 256 65 := by
  have h := response_frames_bounded [79, 75, 13] .Sensus
  refine ⟨?_, ?_⟩
  · have := h.2.2.1 (by norm_num [MeterType.framing, UartFraming.bits_per_frame])
    simpa [MeterType.framing, UartFraming.bits_per_frame] using this
  · exact h.2.2.2 (List.replicate 256 65) 66 (by rw [List.length_replicate])

/-- State of the meter-simulator thread: the configuration fields read
through `MeterHandler` (enabled flag, meter type, response message), the
atomic statistics, and the thread-local transmission state of
`spawn_meter_thread` (`meter/handler.rs` lines 176-258). `data_pin` is
true when the data line is driven high. -/
structure MeterState where
  enabled : Bool
  meter_type : MeterType
  response_message : List Nat
  pulse_count : Nat
  bits_transmitted : Nat
  messages_sent : Nat
  transmitting : Bool
  bit_index : Nat
  response_bits : List Nat
  data_pin : Bool
deriving DecidableEq, Repr

/-- One iteration of the meter loop for one clock-pulse notification
(`meter/handler.rs` lines 185-258): a disabled simulator returns before
counting; otherwise the pulse counter increments, transmission starts on
reaching the wake threshold 10 (building the response frames if the local
buffer is empty and emitting the first bit at once), and an already
transmitting simulator shifts out the next buffered bit, returning to
idle after the last one. -/
def meter_pulse (st : MeterState) : MeterState :=
  if st.enabled = false then st
  else
    let pc := st.pulse_count + 1
    let st := { st with pulse_count := pc }
    if st.transmitting = false then
      if 10 ≤ pc then
        let rb := if st.response_bits.isEmpty
                  then build_response_frames st.response_message st.meter_type
                  else st.response_bits
        if rb.isEmpty = false then
          { st with response_bits := rb,
                    transmitting := true,
                    data_pin := decide (rb.headD 0 = 1),
                    bits_transmitted := st.bits_transmitted + 1,
                    bit_index := 1 }
        else { st with response_bits := rb }
      else st
    else
      if st.bit_index < st.response_bits.length then
        let bit := st.response_bits.getD st.bit_index 0
        let st := { st with data_pin := decide (bit = 1),
                            bits_transmitted := st.bits_transmitted + 1,
                            bit_index := st.bit_index + 1 }
        if st.response_bits.length ≤ st.bit_index then
          { st with transmitting := false,
                    messages_sent := st.messages_sent + 1,
                    pulse_count := 0,
                    bit_index := 0,
                    data_pin := true,
                    response_bits := [] }
        else st
      else st

/-- Run the meter loop over a finite pulse trace; each entry gives the
enabled flag the configuration holds when that pulse's notification is
handled (the flag is written by the CLI thread, read via `is_enabled`). -/
def meter_run (st : MeterState) (pulses : List Bool) : MeterState :=
  pulses.foldl (fun s en => meter_pulse { s with enabled := en }) st

/-- The meter thread's state when it starts waiting for clock signals:
counters zero, not transmitting, local bit buffer empty, data pin high. -/
def initMeter (msg : List Nat) (mt : MeterType) (en : Bool) : MeterState :=
  { enabled := en, meter_type := mt, response_message := msg,
    pulse_count := 0, bits_transmitted := 0, messages_sent := 0,
    transmitting := false, bit_index := 0, response_bits := [], data_pin := true }

/-- A pulse handled while the simulator is disabled changes nothing. -/
theorem meter_pulse_disabled (st : MeterState) (h : st.enabled = false) :
    meter_pulse st = st := by
  simp [meter_pulse, h]

/-- A non-empty response message always builds a non-empty frame buffer. -/
theorem build_response_frames_ne_nil (msg : List Nat) (mt : MeterType) (h : msg ≠ []) :
    build_response_frames msg mt ≠ [] := by
  have hlen := build_response_frames_length msg mt
  have hbpf : 10 ≤ mt.framing.bits_per_frame := by
    cases mt <;> simp [MeterType.framing, UartFraming.bits_per_frame]
  have hmsg : 1 ≤ msg.length := List.length_pos.mpr h
  intro hnil
  rw [hnil] at hlen
  simp only [List.length_nil] at hlen
  have : 10 ≤ msg.length * mt.framing.bits_per_frame :=
    le_trans hbpf (Nat.le_mul_of_pos_left _ hmsg)
  omega

/-- An enabled pulse below the wake threshold only advances the counter. -/
theorem meter_pulse_enabled_below (st : MeterState) (h1 : st.transmitting = false)
    (h2 : st.pulse_count + 1 < 10) :
    meter_pulse { st with enabled := true } =
      { st with enabled := true, pulse_count := st.pulse_count + 1 } := by
  have h10 : ¬ (10 ≤ st.pulse_count + 1) := by omega
  simp [meter_pulse, h1, h10]

/-- While not transmitting and with too few pulses to reach the wake
threshold, running the meter changes neither the transmission state nor
the transmitted-bit counter nor the data pin. -/
theorem meter_run_quiet (ps : List Bool) :
    ∀ st : MeterState, st.transmitting = false → st.pulse_count + ps.length ≤ 9 →
      (meter_run st ps).transmitting = false ∧
      (meter_run st ps).bits_transmitted = st.bits_transmitted ∧
      (meter_run st ps).data_pin = st.data_pin := by
  induction ps with
  | nil => intro st h1 _; exact ⟨h1, rfl, rfl⟩
  | cons en ps ih =>
    intro st h1 h2
    simp only [List.length_cons] at h2
    have hrun : meter_run st (en :: ps) =
        meter_run (meter_pulse { st with enabled := en }) ps := rfl
    cases en with
    | false =>
      have hd : meter_pulse { st with enabled := false } = { st with enabled := false } :=
        meter_pulse_disabled _ rfl
      rw [hrun, hd]
      exact ih { st with enabled := false } h1 (by simpa using by omega)
    | true =>
      have hstep := meter_pulse_enabled_below st h1 (by omega)
      rw [hrun, hstep]
      exact ih { st with enabled := true, pulse_count := st.pulse_count + 1 } h1 (by simp; omega)

/-- With the simulator enabled throughout, k ≤ 9 pulses only advance the
pulse counter from j to j + k (for j + k ≤ 9). -/
theorem meter_run_sync (k : Nat) :
    ∀ (j : Nat) (msg : List Nat) (mt : MeterType), j + k ≤ 9 →
      meter_run { initMeter msg mt true with pulse_count := j } (List.replicate k true) =
        { initMeter msg mt true with pulse_count := j + k } := by
  induction k with
  | zero => intro j msg mt _; simp [meter_run]
  | succ k ih =>
    intro j msg mt hle
    rw [List.replicate_succ]
    have hrun : meter_run { initMeter msg mt true with pulse_count := j }
        (true :: List.replicate k true) =
        meter_run (meter_pulse { { initMeter msg mt true with pulse_count := j }
          with enabled := true }) (List.replicate k true) := rfl
    have hstep := meter_pulse_enabled_below
      { initMeter msg mt true with pulse_count := j } rfl (by show j + 1 < 10; omega)
    rw [hrun, hstep]
    have := ih (j + 1) msg mt (by omega)
    simpa [Nat.add_assoc, Nat.add_comm 1 k] using this

/-- Appending one pulse to a trace runs one more `meter_pulse` step. -/
theorem meter_run_append_one (st : MeterState) (ps : List Bool) (en : Bool) :
    meter_run st (ps ++ [en]) = meter_pulse { meter_run st ps with enabled := en } := by
  simp [meter_run, List.foldl_append]

/-- After 9 enabled pulses from the ready state the counter is 9 and
nothing else has changed. -/
theorem meter_run_nine (msg : List Nat) (mt : MeterType) :
    meter_run (initMeter msg mt true) (List.replicate 9 true) =
      { initMeter msg mt true with pulse_count := 9 } := by
  have h := meter_run_sync 9 0 msg mt (by omega)
  simpa using h

/-- The 10th enabled pulse with a non-empty message starts transmission:
the frames are built, the first bit is driven onto the data pin, and the
transmitted-bit counter becomes 1. -/
theorem meter_pulse_tenth (msg : List Nat) (mt : MeterType) (h : msg ≠ []) :
    meter_pulse { initMeter msg mt true with pulse_count := 9 } =
      { initMeter msg mt true with
          pulse_count := 10,
          transmitting := true,
          response_bits := build_response_frames msg mt,
          data_pin := decide ((build_response_frames msg mt).headD 0 = 1),
          bits_transmitted := 1,
          bit_index := 1 } := by
  have hrb : (build_response_frames msg mt).isEmpty = false := by
    simp [List.isEmpty_eq_false, build_response_frames_ne_nil msg mt h]
  simp [meter_pulse, initMeter, hrb]

/-- C6: starting from the ready state, no response bit is ever output in
fewer than 10 pulses (whatever the enable pattern); with the simulator
enabled and a non-empty message, transmission begins exactly on the 10th
pulse — not the 9th — with the first buffered bit driven on that pulse;
and if the simulator is disabled at that 10th pulse, transmission does
not start. -/
theorem responder_wake_threshold :
    (∀ (msg : List Nat) (mt : MeterType) (en : Bool) (ps : List Bool), ps.length < 10 →
      (meter_run (initMeter msg mt en) ps).transmitting = false ∧
      (meter_run (initMeter msg mt en) ps).bits_transmitted = 0 ∧
      (meter_run (initMeter msg mt en) ps).data_pin = true) ∧
    (∀ (msg : List Nat) (mt : MeterType), msg ≠ [] →
      (meter_run (initMeter msg mt true) (List.replicate 9 true)).transmitting = false ∧
      (meter_run (initMeter msg mt true) (List.replicate 9 true)).bits_transmitted = 0 ∧
      (meter_run (initMeter msg mt true) (List.replicate 10 true)).transmitting = true ∧
      (meter_run (initMeter msg mt true) (List.replicate 10 true)).bits_transmitted = 1 ∧
      (meter_run (initMeter msg mt true) (List.replicate 10 true)).data_pin =
        decide ((build_response_frames msg mt).headD 0 = 1)) ∧
    (∀ (msg : List Nat) (mt : MeterType),
      (meter_run (initMeter msg mt true) (List.replicate 9 true ++ [false])).transmitting
        = false ∧
      (meter_run (initMeter msg mt true) (List.replicate 9 true ++ [false])).bits_transmitted
        = 0) := by
  have hten : ∀ (msg : List Nat) (mt : MeterType),
      meter_run (initMeter msg mt true) (List.replicate 10 true) =
        meter_pulse { initMeter msg mt true with pulse_count := 9 } := by
    intro msg mt
    rw [List.replicate_succ' 9 true, meter_run_append_one, meter_run_nine]
    rfl
  refine ⟨?_, ?_, ?_⟩
  · intro msg mt en ps hps
    have h := meter_run_quiet ps (initMeter msg mt en) rfl (by simp [initMeter]; omega)
    simpa [initMeter] using h
  · intro msg mt hmsg
    have h9 := meter_run_nine msg mt
    have h10 := (hten msg mt).trans (meter_pulse_tenth msg mt hmsg)
    refine ⟨?_, ?_, ?_, ?_, ?_⟩
    · rw [h9]; rfl
    · rw [h9]; rfl
    · rw [h10]
    · rw [h10]
    · rw [h10]
  · intro msg mt
    have hd : meter_pulse { { initMeter msg mt true with pulse_count := 9 }
        with enabled := false } =
        { { initMeter msg mt true with pulse_count := 9 } with enabled := false } :=
      meter_pulse_disabled _ rfl
    rw [meter_run_append_one, meter_run_nine]
    rw [hd]
    simp [initMeter]

/-- Witness for `responder_wake_threshold`: message "O" under Sensus,
traces of 3 pulses, 9 then 10 enabled pulses, and 9 enabled pulses
followed by a disabled one. -/
theorem responder_wake_threshold_witness :
    (meter_run (initMeter [79] .Sensus true) [true, true, true]).transmitting = false ∧
    (meter_run (initMeter [79] .Sensus true) (List.replicate 9 true)).bits_transmitted = 0 ∧
    (meter_run (initMeter [79] .Sensus true) (List.replicate 10 true)).transmitting = true ∧
    (meter_run (initMeter [79] .Sensus true) (List.replicate 10 true)).bits_transmitted = 1 ∧
    (meter_run (initMeter [79] .Sensus true) (List.replicate 9 true ++ [false])).transmitting
      = false := by
  obtain ⟨h1, h2, h3⟩ := responder_wake_threshold
  have ha := h1 [79] .Sensus true [true, true, true] (by decide)
  have hb := h2 [79] .Sensus (by decide)
  have hc := h3 [79] .Sensus
  exact ⟨ha.1, hb.2.1, hb.2.2.1, hb.2.2.2.1, hc.1⟩

/-- C7 counterexample: a single clock pulse received while the simulator
is disabled does not increment the pulse counter (the handler returns
before `pulse_count.fetch_add`), contradicting the claim that the counter
still increments while disabled. -/
theorem disabled_pulse_not_counted :
    ¬ ((meter_run (initMeter [79] .Sensus false) [false]).pulse_count =
        (initMeter [79] .Sensus false).pulse_count + 1) := by
  decide

/-- C7 amended: a clock pulse received while the simulator is disabled is
ignored entirely — neither the pulse counter nor any other state changes;
counting resumes from the accumulated value once re-enabled, and
transmission start is gated by the enabled check before any counting. -/
theorem disabled_pulse_ignored (st : MeterState) (h : st.enabled = false) :
    meter_pulse st = st :=
  meter_pulse_disabled st h

/-- Witness for `disabled_pulse_ignored` at a concrete disabled state. -/
theorem disabled_pulse_ignored_witness :
    meter_pulse (initMeter [79] .Sensus false) = initMeter [79] .Sensus false :=
  disabled_pulse_ignored (initMeter [79] .Sensus false) rfl

/-- State of the UART framing task of `gpio_mtu_timer_v2.rs` lines
484-487: the decoded-character buffer (capacity 256), the frame-error and
frames-decoded counters, the message slot shared with the operation, and
the message-complete flag (only this task stores `true` during an
operation). -/
structure DecoderState where
  received_chars : List Nat
  frame_errors : Nat
  frames_decoded : Nat
  last_message : Option (List Nat)
  message_complete : Bool
deriving DecidableEq, Repr

/-- The framing task's state when it enters its frame loop. -/
def initDecoder : DecoderState :=
  { received_chars := [], frame_errors := 0, frames_decoded := 0,
    last_message := none, message_complete := false }

/-- The idle-sync stage (`gpio_mtu_timer_v2.rs` lines 453-473): while the
count of consecutive 1-bits is below `MIN_IDLE_BITS = 10`, each received
1-bit increments the count, any other received bit resets it to zero, and
a `recv_timeout` timeout leaves it unchanged; returns the final count and
the unconsumed events. The loop also stops, leaving the count where it
is, when the operation is cancelled (end of the event list). -/
def idle_sync (count : Nat) : List (Option Nat) → Nat × List (Option Nat)
  | [] => (count, [])
  | e :: rest =>
    if 10 ≤ count then (count, e :: rest)
    else
      match e with
      | some 1 => idle_sync (count + 1) rest
      | some _ => idle_sync 0 rest
      | none => idle_sync count rest

/-- The frame-collection loop (`gpio_mtu_timer_v2.rs` lines 522-538):
after a start bit, receive up to `n` further bits; each received bit is
appended, and the first timeout (or cancellation / end of events) stops
the collection early. Returns the collected bits and the rest of the
events. -/
def collect_bits : Nat → List (Option Nat) → List Nat × List (Option Nat)
  | 0, evs => ([], evs)
  | _ + 1, [] => ([], [])
  | n + 1, some b :: rest =>
    let p := collect_bits n rest
    (b :: p.1, p.2)
  | _ + 1, none :: rest => ([], rest)

/-- One frame attempt after a start bit (0) was received
(`gpio_mtu_timer_v2.rs` lines 517-602): collect the remaining
`bits_per_frame - 1` bits; if fewer arrive, the partial frame is
discarded and the frame-error counter increments; otherwise the frame is
validated and its character extracted — on a framing error the counter
increments and nothing else changes; on success the character is pushed
onto the capacity-256 buffer and, if it is the carriage return (13), the
message is stored and completion signalled. -/
def frame_attempt (v : UartFraming) (st : DecoderState) (evs : List (Option Nat)) :
    DecoderState × List (Option Nat) :=
  let p := collect_bits (v.bits_per_frame - 1) evs
  let frame_bits := 0 :: p.1
  if 1 + p.1.length ≠ v.bits_per_frame then
    ({ st with frame_errors := st.frame_errors + 1 }, p.2)
  else
    match extract_char_from_frame frame_bits v with
    | .error _ => ({ st with frame_errors := st.frame_errors + 1 }, p.2)
    | .ok ch =>
      let chars := hpush 256 st.received_chars ch
      if ch = 13 then
        ({ st with frames_decoded := st.frames_decoded + 1,
                   received_chars := [],
                   last_message := some chars,
                   message_complete := true }, p.2)
      else
        ({ st with frames_decoded := st.frames_decoded + 1,
                   received_chars := chars }, p.2)

/-- The decoder's frame loop (`gpio_mtu_timer_v2.rs` lines 488-603): while
the message is not complete, skip received 1-bits and timeouts searching
for a start bit (0), run a frame attempt when one is found, and stop when
the message completes or the events run out (cancellation). The fuel
argument bounds the iterations; every iteration consumes at least one
event, so fuel = number of events always suffices. -/
def frame_loop : Nat → UartFraming → DecoderState → List (Option Nat) → DecoderState
  | 0, _, st, _ => st
  | _ + 1, _, st, [] => st
  | fuel + 1, v, st, e :: rest =>
    if st.message_complete then st
    else
      match e with
      | some 0 =>
        let p := frame_attempt v st rest
        frame_loop fuel v p.1 p.2
      | _ => frame_loop fuel v st rest

/-- `uart_framing_task` (`gpio_mtu_timer_v2.rs` lines 441-620): idle-sync
first, then the frame loop over the remaining events, whether or not the
idle threshold was reached. -/
def uart_framing_task (v : UartFraming) (events : List (Option Nat)) : DecoderState :=
  let p := idle_sync 0 events
  frame_loop p.2.length v initDecoder p.2

/-- C3: whenever a frame attempt fails — the collection stalls with fewer
than `bits_per_frame` bits, or the collected frame fails validation — the
partial/invalid frame is discarded, the frame-error counter increments by
exactly 1, no character is appended, the message slot and completion flag
are untouched, and the frame loop resumes searching for the next start
bit instead of aborting. -/
theorem frame_error_recovery (v : UartFraming) (st : DecoderState)
    (evs : List (Option Nat)) (fuel : Nat)
    (hmc : st.message_complete = false)
    (hfail : 1 + (collect_bits (v.bits_per_frame - 1) evs).1.length ≠ v.bits_per_frame ∨
      ∃ e, extract_char_from_frame (0 :: (collect_bits (v.bits_per_frame - 1) evs).1) v =
        .error e) :
    (frame_attempt v st evs).1.frame_errors = st.frame_errors + 1 ∧
    (frame_attempt v st evs).1.received_chars = st.received_chars ∧
    (frame_attempt v st evs).1.message_complete = false ∧
    (frame_attempt v st evs).1.last_message = st.last_message ∧
    frame_loop (fuel + 1) v st (some 0 :: evs) =
      frame_loop fuel v (frame_attempt v st evs).1 (frame_attempt v st evs).2 := by
  have key : frame_attempt v st evs =
      ({ st with frame_errors := st.frame_errors + 1 },
        (collect_bits (v.bits_per_frame - 1) evs).2) := by
    rcases hfail with h | ⟨e, he⟩
    · simp [frame_attempt, h]
    · by_cases hlen : 1 + (collect_bits (v.bits_per_frame - 1) evs).1.length ≠ v.bits_per_frame
      · simp [frame_attempt, hlen]
      · simp [frame_attempt, hlen, he]
  refine ⟨?_, ?_, ?_, ?_, ?_⟩
  · rw [key]
  · rw [key]
  · rw [key]; exact hmc
  · rw [key]
  · simp [frame_loop, hmc]

/-- Witness for `frame_error_recovery`: SevenE1 framing, a start bit
followed by an immediate timeout (one-event list), from the initial
decoder state. -/
theorem frame_error_recovery_witness :
    (frame_attempt .SevenE1 initDecoder [none]).1.frame_errors =
      initDecoder.frame_errors + 1 ∧
    (frame_attempt .SevenE1 initDecoder [none]).1.received_chars =
      initDecoder.received_chars ∧
    frame_loop 1 .SevenE1 initDecoder (some 0 :: [none]) =
      frame_loop 0 .SevenE1 (frame_attempt .SevenE1 initDecoder [none]).1
        (frame_attempt .SevenE1 initDecoder [none]).2 := by
  have h := frame_error_recovery .SevenE1 initDecoder [none] 0 rfl (Or.inl (by decide))
  exact ⟨h.1, h.2.1, h.2.2.2.2⟩

/-- Below the threshold, a received 1-bit increments the idle count. -/
theorem idle_sync_step_one (c : Nat) (rest : List (Option Nat)) (h : c < 10) :
    idle_sync c (some 1 :: rest) = idle_sync (c + 1) rest := by
  have h10 : ¬ (10 ≤ c) := by omega
  simp [idle_sync, h10]

/-- Once the count has reached the threshold the sync stage stops,
consuming nothing further. -/
theorem idle_sync_done (c : Nat) (evs : List (Option Nat)) (h : 10 ≤ c) :
    idle_sync c evs = (c, evs) := by
  cases evs with
  | nil => simp [idle_sync]
  | cons e rest => simp [idle_sync, h]

/-- Ten consecutive received 1-bits bring the count from c to c + 10 = 10
and leave the remaining events unconsumed. -/
theorem idle_sync_replicate (k : Nat) :
    ∀ (c : Nat) (rest : List (Option Nat)), c + k = 10 →
      idle_sync c (List.replicate k (some 1) ++ rest) = (10, rest) := by
  induction k with
  | zero =>
    intro c rest hc
    have : c = 10 := by omega
    subst this
    simpa using idle_sync_done 10 rest (by omega)
  | succ k ih =>
    intro c rest hc
    rw [List.replicate_succ, List.cons_append, idle_sync_step_one c _ (by omega)]
    exact ih (c + 1) rest (by omega)

/-- C4: the idle-sync stage counts consecutive received 1-bits (any other
received bit resets the count to zero, a timeout leaves it unchanged),
stops exactly when the count reaches the fixed threshold 10, and when the
operation is cancelled first (events exhausted) it returns anyway, the
task proceeding to the frame loop either way rather than blocking. -/
theorem idle_sync_behavior :
    (∀ (c : Nat) (rest : List (Option Nat)), c < 10 →
      idle_sync c (some 1 :: rest) = idle_sync (c + 1) rest) ∧
    (∀ (c b : Nat) (rest : List (Option Nat)), c < 10 → b ≠ 1 →
      idle_sync c (some b :: rest) = idle_sync 0 rest) ∧
    (∀ (c : Nat) (rest : List (Option Nat)), c < 10 →
      idle_sync c (none :: rest) = idle_sync c rest) ∧
    (∀ (c : Nat) (evs : List (Option Nat)), 10 ≤ c → idle_sync c evs = (c, evs)) ∧
    (∀ c : Nat, idle_sync c [] = (c, [])) ∧
    (∀ rest : List (Option Nat),
      idle_sync 0 (List.replicate 10 (some 1) ++ rest) = (10, rest)) ∧
    (∀ (v : UartFraming) (events : List (Option Nat)),
      uart_framing_task v events =
        frame_loop (idle_sync 0 events).2.length v initDecoder (idle_sync 0 events).2) := by
  refine ⟨idle_sync_step_one, ?_, ?_, idle_sync_done, ?_, ?_, ?_⟩
  · intro c b rest hc hb
    have h10 : ¬ (10 ≤ c) := by omega
    rcases b with _ | b
    · simp [idle_sync, h10]
    · rcases b with _ | b
      · exact absurd rfl hb
      · simp [idle_sync, h10]
  · intro c rest hc
    have h10 : ¬ (10 ≤ c) := by omega
    simp [idle_sync, h10]
  · intro c
    simp [idle_sync]
  · intro rest
    exact idle_sync_replicate 10 0 rest (by omega)
  · intro v events
    rfl

/-- Witness for `idle_sync_behavior` at concrete counts and event lists. -/
theorem idle_sync_behavior_witness :
    idle_sync 3 [some 1, none] = idle_sync 4 [none] ∧
    idle_sync 3 [some 0] = idle_sync 0 [] ∧
    idle_sync 3 [none] = idle_sync 3 [] ∧
    idle_sync 10 [some 0] = (10, [some 0]) ∧
    idle_sync 7 [] = (7, []) ∧
    idle_sync 0 (List.replicate 10 (some 1) ++ [some 0]) = (10, [some 0]) ∧
    uart_framing_task .SevenE1 [none] =
      frame_loop (idle_sync 0 [none]).2.length .SevenE1 initDecoder (idle_sync 0 [none]).2 := by
  obtain ⟨h1, h2, h3, h4, h5, h6, h7⟩ := idle_sync_behavior
  exact ⟨h1 3 [none] (by omega), h2 3 0 [] (by omega) (by omega), h3 3 [] (by omega),
    h4 10 [some 0] (by omega), h5 7, h6 [some 0], h7 .SevenE1 [none]⟩

/-- Externally observable state of `GpioMtuTimerV2`: the statistics
counters and last-message slot of `mtu/gpio_mtu_timer_v2.rs` lines 24-31,
the running flag, and the MTU thread's clock pin (true = high). -/
structure MtuState where
  successful_reads : Nat
  corrupted_reads : Nat
  last_message : Option (List Nat)
  running : Bool
  clock_pin : Bool
deriving DecidableEq, Repr

/-- A fresh `GpioMtuTimerV2::new` state with the clock pin low. -/
def initMtu : MtuState :=
  { successful_reads := 0, corrupted_reads := 0, last_message := none,
    running := false, clock_pin := false }

/-- `run_mtu_operation_with_timer` (`gpio_mtu_timer_v2.rs` lines 187-437):
sets the running flag, feeds the sampled bit events to the UART framing
task, then on exit (message complete, or the duration elapsing — the end
of the event trace) clears the running flag, powers the clock pin off,
and updates the statistics from the received message: a received message
increments `successful_reads` and overwrites `last_message`; no message
increments `corrupted_reads` and leaves `last_message` alone. The GPIO
writes are pure state updates here, so the `GpioError` early returns are
unreachable and the operation ends in `Ok`. -/
def run_mtu_operation (st : MtuState) (v : UartFraming) (events : List (Option Nat)) :
    Except MtuError MtuState :=
  let task := uart_framing_task v events
  let st1 := { st with running := false, clock_pin := false }
  match task.last_message with
  | some msg => .ok { st1 with successful_reads := st1.successful_reads + 1,
                               last_message := some msg }
  | none => .ok { st1 with corrupted_reads := st1.corrupted_reads + 1 }

/-- Commands of the MTU thread's channel (`MtuCommand`). -/
inductive MtuCommand
  | Start (duration_secs : Nat)
  | Stop
deriving DecidableEq, Repr

/-- One iteration of the MTU thread's command loop (`spawn_mtu_thread`,
`gpio_mtu_timer_v2.rs` lines 137-175): `Start` runs one bounded operation
(an operation error is logged, never propagated out of the loop); `Stop`
clears the running flag (`GpioMtuTimerV2::stop`) and forces the clock pin
low (power off), whether or not an operation is running. -/
def mtu_command_step (st : MtuState) (v : UartFraming) (cmd : MtuCommand)
    (events : List (Option Nat)) : MtuState :=
  match cmd with
  | .Start _ =>
    match run_mtu_operation st v events with
    | .ok st' => st'
    | .error _ => st
  | .Stop => { st with running := false, clock_pin := false }

/-- C5: an operation whose trace ends without a complete decoded message
returns Ok (not an error) with `corrupted_reads` incremented by exactly 1
and `successful_reads` unchanged; an operation that receives a complete
message returns Ok with `successful_reads` incremented by exactly 1 and
`corrupted_reads` unchanged. -/
theorem operation_timeout_counts (st : MtuState) (v : UartFraming)
    (events : List (Option Nat)) :
    ((uart_framing_task v events).last_message = none →
      run_mtu_operation st v events =
        .ok { st with running := false, clock_pin := false,
                      corrupted_reads := st.corrupted_reads + 1 }) ∧
    (∀ msg : List Nat, (uart_framing_task v events).last_message = some msg →
      run_mtu_operation st v events =
        .ok { st with running := false, clock_pin := false,
                      successful_reads := st.successful_reads + 1,
                      last_message := some msg }) := by
  constructor
  · intro h
    simp [run_mtu_operation, h]
  · intro msg h
    simp [run_mtu_operation, h]

set_option maxRecDepth 20000 in
/-- Witness for `operation_timeout_counts`: an empty trace (no bits ever
sampled) increments only `corrupted_reads`; an idle prefix followed by
the 30 bits of "OK\r" under SevenE1 increments only `successful_reads`
and stores the message. -/
theorem operation_timeout_counts_witness :
    run_mtu_operation initMtu .SevenE1 [] =
      .ok { initMtu with running := false, clock_pin := false,
                         corrupted_reads := initMtu.corrupted_reads + 1 } ∧
    run_mtu_operation initMtu .SevenE1
        (List.replicate 10 (some 1) ++
          (build_response_frames [79, 75, 13] .Sensus).map some) =
      .ok { initMtu with running := false, clock_pin := false,
                         successful_reads := initMtu.successful_reads + 1,
                         last_message := some [79, 75, 13] } := by
  refine ⟨(operation_timeout_counts initMtu .SevenE1 []).1 (by decide), ?_⟩
  exact (operation_timeout_counts initMtu .SevenE1
    (List.replicate 10 (some 1) ++
      (build_response_frames [79, 75, 13] .Sensus).map some)).2 [79, 75, 13] (by decide)

/-- C10: an operation that times out without a complete message leaves the
`last_message` slot exactly as it was before the operation; the slot is
overwritten only when a complete message is received. -/
theorem last_message_preserved (st : MtuState) (v : UartFraming)
    (events : List (Option Nat)) :
    ((uart_framing_task v events).last_message = none →
      ∃ st', run_mtu_operation st v events = .ok st' ∧
        st'.last_message = st.last_message) ∧
    (∀ msg : List Nat, (uart_framing_task v events).last_message = some msg →
      ∃ st', run_mtu_operation st v events = .ok st' ∧
        st'.last_message = some msg) := by
  constructor
  · intro h
    have hok : run_mtu_operation st v events =
        .ok { st with running := false, clock_pin := false,
                      corrupted_reads := st.corrupted_reads + 1 } := by
      simp [run_mtu_operation, h]
    exact ⟨_, hok, rfl⟩
  · intro msg h
    have hok : run_mtu_operation st v events =
        .ok { st with running := false, clock_pin := false,
                      successful_reads := st.successful_reads + 1,
                      last_message := some msg } := by
      simp [run_mtu_operation, h]
    exact ⟨_, hok, rfl⟩

/-- Witness for `last_message_preserved`: a timed-out operation (a single
timeout event) starting with a previously stored message "A" keeps it. -/
theorem last_message_preserved_witness :
    ∃ st', run_mtu_operation { initMtu with last_message := some [65] }
        .SevenE1 [none] = .ok st' ∧
      st'.last_message = some [65] :=
  (last_message_preserved { initMtu with last_message := some [65] }
    .SevenE1 [none]).1 (by decide)

/-- C9: a Stop command, whenever it is handled — also while no operation
is running — produces no error, clears the running flag, forces the clock
pin low (power off), and changes nothing else. -/
theorem stop_forces_power_off (st : MtuState) (v : UartFraming)
    (events : List (Option Nat)) :
    (mtu_command_step st v .Stop events).running = false ∧
    (mtu_command_step st v .Stop events).clock_pin = false ∧
    (mtu_command_step st v .Stop events).successful_reads = st.successful_reads ∧
    (mtu_command_step st v .Stop events).corrupted_reads = st.corrupted_reads ∧
    (mtu_command_step st v .Stop events).last_message = st.last_message :=
  ⟨rfl, rfl, rfl, rfl, rfl⟩
